import Mathlib

/-!
# Verification of the octoclaw core: gcode metadata extraction and telemetry anomaly detection

This development gives a shallow embedding of the two pure components of
`scripts/octoprint.py`:

* `check_errors` (telemetry anomaly detection): the portion that turns the
  already-fetched printer state (state flags, per-tool temperatures, job
  progress) into a verdict record `{status, errors, warnings}`.  Numeric
  sensor readings are modelled as rationals (`ℚ`); Python's `x or 0`
  null-coalescing is modelled on `Option ℚ`.
* `analyze_gcode` (metadata extraction): the per-line scanning loop over the
  file's lines.  Lines are modelled as lists of characters; the regular
  expressions used by the source (`Z([\d.]+)`, `S([\d.]+)`, `;TIME:([\d]+)`,
  `([\d.]+)m`, `=\s*([\d.]+)`, `([\d.-]+)`) are transcribed as explicit
  scanning functions with the same leftmost-match semantics.  Python's
  `float()` on a regex-matched token can raise `ValueError` (e.g. on `"."`),
  and `line.split(':')[1]` can raise `IndexError`; the embedding therefore
  returns `Except PyErr`.

Python's `f"{x:.1f}"` formatting is modelled by `fmt1` over `ℚ` (exact
decimal rounding; binary-float tie behaviour is not modelled, and no theorem
below depends on a tie case).
-/

/-- Equality of `Except` values is decidable when it is on both components. -/
instance {ε α : Type} [DecidableEq ε] [DecidableEq α] : DecidableEq (Except ε α) := by
  intro x y
  cases x <;> cases y
  case error.error e₁ e₂ =>
    exact if h : e₁ = e₂ then .isTrue (by rw [h]) else .isFalse (by intro hh; cases hh; exact h rfl)
  case error.ok _ _ => exact .isFalse (by intro hh; cases hh)
  case ok.error _ _ => exact .isFalse (by intro hh; cases hh)
  case ok.ok a₁ a₂ =>
    exact if h : a₁ = a₂ then .isTrue (by rw [h]) else .isFalse (by intro hh; cases hh; exact h rfl)

/-- Left-biased choice on `Option`, the shape of Python's
"assign only if `None`" (first write wins) and of plain reassignment
(last write wins) once folded over a line sequence. -/
def pyor {α : Type} : Option α → Option α → Option α
  | some v, _ => some v
  | none, b => b

@[simp] theorem pyor_none_left {α : Type} (b : Option α) : pyor none b = b := rfl

@[simp] theorem pyor_some_left {α : Type} (v : α) (b : Option α) : pyor (some v) b = some v := rfl

@[simp] theorem pyor_none_right {α : Type} (a : Option α) : pyor a none = a := by
  cases a <;> rfl

theorem pyor_assoc {α : Type} (a b c : Option α) :
    pyor (pyor a b) c = pyor a (pyor b c) := by
  cases a <;> rfl

/-- Round a rational to the nearest integer (half up), written directly on
the numerator and denominator so that it evaluates inside the kernel. -/
def qround (q : ℚ) : ℤ := (q + 1 / 2).num.fdiv ((q + 1 / 2).den : ℤ)

/-- Model of Python's `f"{q:.1f}"` fixed-point formatting with one decimal,
applied to an exact rational. -/
def fmt1 (q : ℚ) : String :=
  let n : ℤ := qround (q * 10)
  (if n < 0 then "-" else "") ++ toString (n.natAbs / 10) ++ "." ++ toString (n.natAbs % 10)

/-! ## Telemetry anomaly detection (`check_errors`, octoprint.py lines 191-244) -/

/-- One value of the `temperature` mapping: the source guards each entry with
`isinstance(tool_data, dict) and 'actual' in tool_data`, then reads
`tool_data.get('actual', 0) or 0` and `tool_data.get('target', 0) or 0`.
`temps a t` is a dict containing an `actual` key; `a`/`t` are `none` when the
JSON value is null (a missing `target` key behaves the same as null: both
coalesce to `0`). -/
inductive ToolData where
  | notDict : ToolData
  | noActual : ToolData
  | temps : Option ℚ → Option ℚ → ToolData
deriving DecidableEq

/-- Python's `value or 0` applied to an optional sensor reading. -/
def pyOr0 (x : Option ℚ) : ℚ := x.getD 0

/-- The inputs `check_errors` reads from the two API responses:
`state.flags.error`, `state.flags.closedOrError`, `state.flags.printing`,
the `temperature` mapping in iteration order, and
`progress.completion` / `progress.printTime` from the job response. -/
structure Snapshot where
  errorFlag : Bool
  closedOrError : Bool
  printing : Bool
  tools : List (String × ToolData)
  completion : Option ℚ
  printTime : Option ℚ
deriving DecidableEq

/-- The verdict record built by `check_errors` (the `timestamp` field of the
source, `datetime.now()`, is impure and outside the model). -/
structure Verdict where
  status : String
  errors : List String
  warnings : List String
deriving DecidableEq

def errStateMsg : String := "Printer is in error state"

def errClosedMsg : String := "Printer connection closed or error"

def stallMsg : String := "Print may be stalled (no progress after 5 minutes)"

def devErrMsg (name : String) (diff actual target : ℚ) : String :=
  name ++ " temperature off by " ++ fmt1 diff ++ "°C (actual: " ++ fmt1 actual
    ++ "°C, target: " ++ fmt1 target ++ "°C)"

def devWarnMsg (name : String) (diff : ℚ) : String :=
  name ++ " temperature " ++ fmt1 diff ++ "°C from target"

def overheatMsg (name : String) (actual : ℚ) : String :=
  name ++ " overheating: " ++ fmt1 actual ++ "°C"

/-- The temperature-deviation check (source lines 215-220): only while
printing with a positive target; `diff > 15` is an error, else `diff > 5`
a warning. -/
def devPart (printing : Bool) (name : String) (actual target : ℚ) :
    List String × List String :=
  if printing = true ∧ 0 < target then
    let diff := |actual - target|
    if 15 < diff then ([devErrMsg name diff actual target], [])
    else if 5 < diff then ([], [devWarnMsg name diff])
    else ([], [])
  else ([], [])

/-- The overheating check (source lines 222-224): `actual > 280` is an error
regardless of printing state or target. -/
def heatPart (name : String) (actual : ℚ) : List String :=
  if 280 < actual then [overheatMsg name actual] else []

/-- Error and warning messages contributed by one entry of the temperature
mapping: the deviation error (if any) is appended before the overheating
error, exactly as in the source's loop body. -/
def toolMsgs (printing : Bool) (name : String) : ToolData → List String × List String
  | .notDict => ([], [])
  | .noActual => ([], [])
  | .temps a t =>
      let actual := pyOr0 a
      let target := pyOr0 t
      let d := devPart printing name actual target
      (d.1 ++ heatPart name actual, d.2)

/-- Source lines 200-205: the two state-flag errors, in order. -/
def stateErrs (s : Snapshot) : List String :=
  (if s.errorFlag then [errStateMsg] else []) ++
    (if s.closedOrError then [errClosedMsg] else [])

/-- Source line 232: `progress == 0 and print_time and print_time > 300`.
`progress == 0` is false for `None`; `print_time` is truthy only when it is
a non-`None`, non-zero number. -/
def stallCond (s : Snapshot) : Bool :=
  s.printing && decide (s.completion = some (0 : ℚ)) &&
    (match s.printTime with
     | none => false
     | some t => !(decide (t = 0)) && decide ((300 : ℚ) < t))

/-- Shallow embedding of `check_errors` (minus the HTTP fetching and JSON
printing): accumulate state-flag errors, then per-tool messages in mapping
iteration order, then the stall warning, and derive the status. -/
def checkErrors (s : Snapshot) : Verdict :=
  let p := s.tools.foldl
    (fun (acc : List String × List String) q =>
      (acc.1 ++ (toolMsgs s.printing q.1 q.2).1, acc.2 ++ (toolMsgs s.printing q.1 q.2).2))
    (stateErrs s, ([] : List String))
  let warnings2 := if stallCond s then p.2 ++ [stallMsg] else p.2
  { status := if p.1 = [] then (if warnings2 = [] then "ok" else "warning") else "error"
    errors := p.1
    warnings := warnings2 }

/-- Concatenation of per-tool message contributions, used to state how the
loop's accumulation decomposes. -/
def flatMsgs {α : Type} (f : α → List String) : List α → List String
  | [] => []
  | x :: xs => f x ++ flatMsgs f xs

theorem flatMsgs_append {α : Type} (f : α → List String) (l₁ l₂ : List α) :
    flatMsgs f (l₁ ++ l₂) = flatMsgs f l₁ ++ flatMsgs f l₂ := by
  induction l₁ with
  | nil => simp [flatMsgs]
  | cons x xs ih => simp [flatMsgs, ih]

theorem checkErrors_fold (ts : List (String × ToolData)) (printing : Bool)
    (e w : List String) :
    ts.foldl
      (fun (acc : List String × List String) q =>
        (acc.1 ++ (toolMsgs printing q.1 q.2).1, acc.2 ++ (toolMsgs printing q.1 q.2).2))
      (e, w)
    = (e ++ flatMsgs (fun q => (toolMsgs printing q.1 q.2).1) ts,
       w ++ flatMsgs (fun q => (toolMsgs printing q.1 q.2).2) ts) := by
  induction ts generalizing e w with
  | nil => simp [flatMsgs]
  | cons q qs ih => simp [flatMsgs, ih]

/-- The error list of the verdict is the state-flag errors followed by the
per-tool errors in mapping iteration order. -/
theorem checkErrors_errors (s : Snapshot) :
    (checkErrors s).errors
      = stateErrs s ++ flatMsgs (fun q => (toolMsgs s.printing q.1 q.2).1) s.tools := by
  simp [checkErrors, checkErrors_fold]

/-- The warning list is the per-tool warnings followed by the optional stall
warning. -/
theorem checkErrors_warnings (s : Snapshot) :
    (checkErrors s).warnings
      = flatMsgs (fun q => (toolMsgs s.printing q.1 q.2).2) s.tools
        ++ (if stallCond s then [stallMsg] else []) := by
  by_cases h : stallCond s <;> simp [checkErrors, checkErrors_fold, h]

/-- The status field is computed from emptiness of the two lists. -/
theorem checkErrors_status (s : Snapshot) :
    (checkErrors s).status
      = if (checkErrors s).errors = [] then
          (if (checkErrors s).warnings = [] then "ok" else "warning")
        else "error" := by
  simp [checkErrors]

theorem status_error_of_errors {s : Snapshot} (h : (checkErrors s).errors ≠ []) :
    (checkErrors s).status = "error" := by
  rw [checkErrors_status]
  simp [h]

/-- C3: for every snapshot, the verdict's status is `error` iff `errors` is
non-empty, `warning` iff `errors` is empty and `warnings` is non-empty, and
`ok` iff both are empty. -/
theorem verdict_status_invariant (s : Snapshot) :
    ((checkErrors s).status = "error" ↔ (checkErrors s).errors ≠ [])
  ∧ ((checkErrors s).status = "warning"
      ↔ ((checkErrors s).errors = [] ∧ (checkErrors s).warnings ≠ []))
  ∧ ((checkErrors s).status = "ok"
      ↔ ((checkErrors s).errors = [] ∧ (checkErrors s).warnings = [])) := by
  have h := checkErrors_status s
  by_cases he : (checkErrors s).errors = [] <;>
    by_cases hw : (checkErrors s).warnings = [] <;>
      simp [he, hw] at h <;> simp [he, hw, h]

/-- C7: the stall warning is appended, after the per-tool warnings, exactly
when the snapshot is printing, completion equals 0, and the elapsed print
time exists and exceeds 300 seconds. -/
theorem stall_rule (s : Snapshot) :
    ((checkErrors s).warnings
      = flatMsgs (fun q => (toolMsgs s.printing q.1 q.2).2) s.tools
        ++ (if stallCond s then [stallMsg] else []))
  ∧ (stallCond s = true ↔
      s.printing = true ∧ s.completion = some 0
        ∧ ∃ t, s.printTime = some t ∧ (300 : ℚ) < t) := by
  refine ⟨checkErrors_warnings s, ?_⟩
  unfold stallCond
  cases hpt : s.printTime with
  | none => simp
  | some t =>
    simp only [Bool.and_eq_true, decide_eq_true_eq, Bool.not_eq_true', decide_eq_false_iff_not,
      Option.some.injEq]
    constructor
    · rintro ⟨⟨hp, hc⟩, _, h300⟩
      exact ⟨hp, hc, t, rfl, h300⟩
    · rintro ⟨hp, hc, t', ht', h300⟩
      cases ht'
      exact ⟨⟨hp, hc⟩, by intro h0; rw [h0] at h300; norm_num at h300, h300⟩

section RatEval

/- Batteries marks the `Rat` field operations `@[irreducible]`; re-mark them
semireducible locally so that `decide` can evaluate concrete snapshots and
lines. -/
attribute [local semireducible] Rat.mul Rat.add Rat.sub Rat.inv Rat.ofScientific

/-- C5: temperature-deviation rule.  The verdict's lists decompose into
per-tool contributions in mapping iteration order, and for a tool entry with
an `actual` key the deviation rule contributes exactly: an error (naming the
tool, the delta, the actual and the target) when printing with positive
target and `|actual - target| > 15`; a warning (naming the tool and the
delta) when printing with positive target and `5 < |actual - target| ≤ 15`;
and nothing otherwise. -/
theorem temp_deviation_rule (s : Snapshot) :
    ((checkErrors s).errors
        = stateErrs s ++ flatMsgs (fun q => (toolMsgs s.printing q.1 q.2).1) s.tools)
  ∧ ((checkErrors s).warnings
        = flatMsgs (fun q => (toolMsgs s.printing q.1 q.2).2) s.tools
          ++ (if stallCond s then [stallMsg] else []))
  ∧ ∀ (name : String) (a t : Option ℚ),
      (s.printing = true → 0 < pyOr0 t → 15 < |pyOr0 a - pyOr0 t| →
        toolMsgs s.printing name (.temps a t)
          = (devErrMsg name |pyOr0 a - pyOr0 t| (pyOr0 a) (pyOr0 t)
              :: heatPart name (pyOr0 a), []))
    ∧ (s.printing = true → 0 < pyOr0 t → 5 < |pyOr0 a - pyOr0 t| →
        |pyOr0 a - pyOr0 t| ≤ 15 →
        toolMsgs s.printing name (.temps a t)
          = (heatPart name (pyOr0 a), [devWarnMsg name |pyOr0 a - pyOr0 t|]))
    ∧ ((|pyOr0 a - pyOr0 t| ≤ 5 ∨ s.printing = false ∨ pyOr0 t ≤ 0) →
        toolMsgs s.printing name (.temps a t) = (heatPart name (pyOr0 a), [])) := by
  refine ⟨checkErrors_errors s, checkErrors_warnings s, ?_⟩
  intro name a t
  refine ⟨?_, ?_, ?_⟩
  · intro hp h0 h15
    simp [toolMsgs, devPart, hp, h0, h15]
  · intro hp h0 h5 h15
    have h15' : ¬ (15 : ℚ) < |pyOr0 a - pyOr0 t| := not_lt.mpr h15
    simp [toolMsgs, devPart, hp, h0, h15', h5]
  · rintro (h5 | hp | h0)
    · have h15' : ¬ (15 : ℚ) < |pyOr0 a - pyOr0 t| := by
        intro h; linarith
      have h5' : ¬ (5 : ℚ) < |pyOr0 a - pyOr0 t| := not_lt.mpr h5
      by_cases hp : s.printing = true
      · by_cases h0 : 0 < pyOr0 t
        · simp [toolMsgs, devPart, hp, h0, h15', h5']
        · simp [toolMsgs, devPart, hp, h0]
      · simp [toolMsgs, devPart, hp]
    · simp [toolMsgs, devPart, hp]
    · have h0' : ¬ 0 < pyOr0 t := not_lt.mpr h0
      by_cases hp : s.printing = true <;> simp [toolMsgs, devPart, hp, h0']

/-- The snapshot of the spec's concrete case 2: printing, one tool with
`actual = 210`, `target = 200`, completion 50 %. -/
def snapWarn : Snapshot :=
  { errorFlag := false, closedOrError := false, printing := true
    tools := [("tool0", ToolData.temps (some 210) (some 200))]
    completion := some 50, printTime := none }

theorem temp_deviation_rule_witness :
    toolMsgs snapWarn.printing "tool0" (.temps (some 210) (some 200))
      = (heatPart "tool0" (pyOr0 (some 210)),
         [devWarnMsg "tool0" |pyOr0 (some 210) - pyOr0 (some 200)|]) :=
  (((temp_deviation_rule snapWarn).2.2 "tool0" (some 210) (some 200)).2.1
    rfl (by norm_num [pyOr0]) (by norm_num [pyOr0]) (by norm_num [pyOr0]))

/-- The snapshot of the spec's concrete case 3: not printing, one tool with
`actual = 290`, `target = 0`. -/
def snap290 : Snapshot :=
  { errorFlag := false, closedOrError := false, printing := false
    tools := [("tool0", ToolData.temps (some 290) (some 0))]
    completion := none, printTime := none }

/-- C6: overheating rule.  Independent of printing state and target, a tool
whose actual reading exceeds 280 contributes an overheating error after
whatever the deviation rule contributed; concretely, the snapshot with
`tool0 = {actual: 290, target: 0}` and no printing flag yields status
`error` with exactly `["tool0 overheating: 290.0°C"]`. -/
theorem overheating_rule (printing : Bool) (name : String) (a t : Option ℚ)
    (h : (280 : ℚ) < pyOr0 a) :
    (toolMsgs printing name (.temps a t)
      = ((devPart printing name (pyOr0 a) (pyOr0 t)).1 ++ [overheatMsg name (pyOr0 a)],
         (devPart printing name (pyOr0 a) (pyOr0 t)).2))
  ∧ checkErrors snap290
      = { status := "error", errors := ["tool0 overheating: 290.0°C"], warnings := [] } := by
  constructor
  · simp [toolMsgs, heatPart, h]
  · decide

theorem overheating_rule_witness :
    checkErrors snap290
      = { status := "error", errors := ["tool0 overheating: 290.0°C"], warnings := [] } :=
  (overheating_rule false "tool0" (some 300) none (by norm_num [pyOr0])).2

/-- C9: monotonic severity.  If a snapshot produced status `warning`, then
setting the error flag, setting the closed-or-error flag, or raising one
tool's actual reading above 280 each yield status `error` — never `ok`. -/
theorem monotonic_severity (s : Snapshot)
    (_hw : (checkErrors s).status = "warning")
    (pre post : List (String × ToolData)) (name : String) (a t a' : Option ℚ)
    (htools : s.tools = pre ++ (name, ToolData.temps a t) :: post)
    (hhot : (280 : ℚ) < pyOr0 a') :
    ((checkErrors { s with errorFlag := true }).status = "error"
      ∧ (checkErrors { s with errorFlag := true }).status ≠ "ok")
  ∧ ((checkErrors { s with closedOrError := true }).status = "error"
      ∧ (checkErrors { s with closedOrError := true }).status ≠ "ok")
  ∧ ((checkErrors { s with tools := pre ++ (name, ToolData.temps a' t) :: post }).status = "error"
      ∧ (checkErrors { s with tools := pre ++ (name, ToolData.temps a' t) :: post }).status
          ≠ "ok") := by
  have herrflag :
      (checkErrors { s with errorFlag := true }).status = "error" := by
    apply status_error_of_errors
    rw [checkErrors_errors]
    simp [stateErrs]
  have hclosed :
      (checkErrors { s with closedOrError := true }).status = "error" := by
    apply status_error_of_errors
    rw [checkErrors_errors]
    by_cases hf : ({ s with closedOrError := true } : Snapshot).errorFlag <;>
      simp [stateErrs, hf]
  have htool :
      (checkErrors { s with tools := pre ++ (name, ToolData.temps a' t) :: post }).status
        = "error" := by
    apply status_error_of_errors
    rw [checkErrors_errors]
    intro hnil
    rw [List.append_eq_nil] at hnil
    rw [flatMsgs_append] at hnil
    have h2 := hnil.2
    rw [List.append_eq_nil] at h2
    have h3 := h2.2
    rw [flatMsgs] at h3
    rw [List.append_eq_nil] at h3
    have h4 := h3.1
    simp only [toolMsgs, heatPart, hhot, if_pos] at h4
    rw [List.append_eq_nil] at h4
    exact List.cons_ne_nil _ _ h4.2
  refine ⟨⟨herrflag, ?_⟩, ⟨hclosed, ?_⟩, ⟨htool, ?_⟩⟩ <;> simp_all

theorem monotonic_severity_witness :
    ((checkErrors { snapWarn with errorFlag := true }).status = "error"
      ∧ (checkErrors { snapWarn with errorFlag := true }).status ≠ "ok")
  ∧ ((checkErrors { snapWarn with closedOrError := true }).status = "error"
      ∧ (checkErrors { snapWarn with closedOrError := true }).status ≠ "ok")
  ∧ ((checkErrors
        { snapWarn with tools := [] ++ ("tool0", ToolData.temps (some 300) (some 200)) :: [] }
      ).status = "error"
      ∧ (checkErrors
          { snapWarn with tools := [] ++ ("tool0", ToolData.temps (some 300) (some 200)) :: [] }
        ).status ≠ "ok") :=
  monotonic_severity snapWarn (by decide) [] [] "tool0" (some 210) (some 200) (some 300)
    rfl (by decide)

/-- C10: null-value handling.  A `null` reading coalesces to `0`; hence a
null actual never triggers the overheating rule (its per-tool contribution is
exactly the deviation rule's), and while printing against a positive target
`tv`, a null actual gives deviation `|0 - tv| = tv`, so `tv > 15` produces
the deviation error for that tool.  Non-dict entries and dicts without an
`actual` key contribute nothing to either rule. -/
theorem null_temperature_handling (printing : Bool) (name : String) (t : Option ℚ)
    (tv : ℚ) (h0 : 0 < tv) (h15 : (15 : ℚ) < tv) :
    toolMsgs printing name .notDict = ([], [])
  ∧ toolMsgs printing name .noActual = ([], [])
  ∧ pyOr0 none = 0
  ∧ toolMsgs printing name (.temps none t)
      = ((devPart printing name 0 (pyOr0 t)).1, (devPart printing name 0 (pyOr0 t)).2)
  ∧ toolMsgs true name (.temps none (some tv)) = ([devErrMsg name tv 0 tv], []) := by
  refine ⟨rfl, rfl, rfl, ?_, ?_⟩
  · have hno : heatPart name 0 = [] := by
      simp [heatPart]
    simp [toolMsgs, pyOr0, hno]
  · have habs : |tv| = tv := abs_of_pos h0
    have hno : ¬ (280 : ℚ) < 0 := by norm_num
    simp [toolMsgs, devPart, pyOr0, heatPart, habs, h15, h0, hno]

theorem null_temperature_handling_witness :
    toolMsgs true "tool0" .notDict = ([], [])
  ∧ toolMsgs true "tool0" .noActual = ([], [])
  ∧ pyOr0 none = 0
  ∧ toolMsgs true "tool0" (.temps none (some 5))
      = ((devPart true "tool0" 0 (pyOr0 (some 5))).1, (devPart true "tool0" 0 (pyOr0 (some 5))).2)
  ∧ toolMsgs true "tool0" (.temps none (some 20)) = ([devErrMsg "tool0" 20 0 20], []) :=
  null_temperature_handling true "tool0" (some 5) 20 (by norm_num) (by norm_num)

/-! ## Gcode metadata extraction (`analyze_gcode`, octoprint.py lines 246-321) -/

/-- A line of the gcode file, as a list of characters. -/
abbrev Line := List Char

/-- The whitespace characters stripped by `str.strip()` and matched by the
regex class `\s` (ASCII range; the model restricts itself to ASCII
whitespace). -/
def isPyWs (c : Char) : Bool :=
  c == ' ' || c == '\t' || c == '\n' || c == '\r' || c == '\x0b' || c == '\x0c'

/-- Python's `line.strip()`. -/
def pyStrip (l : Line) : Line :=
  ((l.dropWhile isPyWs).reverse.dropWhile isPyWs).reverse

/-- Python's `line.lower()` (ASCII case folding). -/
def lowerLine (l : Line) : Line := l.map Char.toLower

/-- Python's `pat in line` substring containment. -/
def containsSub (pat : Line) : Line → Bool
  | [] => pat.isEmpty
  | c :: cs => pat.isPrefixOf (c :: cs) || containsSub pat cs

/-- Character class `[\d.]`. -/
def isDigitDot (c : Char) : Bool := c.isDigit || c == '.'

/-- Character class `[\d.-]`. -/
def isDigitDotDash (c : Char) : Bool := c.isDigit || c == '.' || c == '-'

/-- `re.search(r'K([\d.]+)', line)` for a one-character key `K` (used with
`Z` and `S`): the first position holding `K` followed by at least one token
character; the group is the maximal token run after that `K`. -/
def searchKeyTok (key : Char) (isTok : Char → Bool) : Line → Option Line
  | [] => none
  | c :: cs =>
      if c == key then
        let tok := cs.takeWhile isTok
        if tok.isEmpty then searchKeyTok key isTok cs else some tok
      else searchKeyTok key isTok cs

/-- `re.search(r'PAT([tok]+)', line)` for a literal pattern `PAT` followed by
a non-empty token run (used for `;TIME:` with digits). -/
def searchLitTok (pat : Line) (isTok : Char → Bool) : Line → Option Line
  | [] => none
  | c :: cs =>
      if pat.isPrefixOf (c :: cs) then
        let tok := ((c :: cs).drop pat.length).takeWhile isTok
        if tok.isEmpty then searchLitTok pat isTok cs else some tok
      else searchLitTok pat isTok cs

/-- `re.search(r'([\d.]+)m', line)`: the leftmost maximal token run that is
immediately followed by the letter `m` (a shorter prefix of a run cannot
match, because the following character would again be a token character). -/
def searchTokM (isTok : Char → Bool) : Line → Option Line
  | [] => none
  | c :: cs =>
      if isTok c then
        match cs.drop (cs.takeWhile isTok).length with
        | 'm' :: _ => some (c :: cs.takeWhile isTok)
        | _ => searchTokM isTok cs
      else searchTokM isTok cs

/-- `re.search(r'=\s*([\d.]+)', line)`: an `=`, optional whitespace, then a
non-empty `[\d.]` run. -/
def searchEqNum : Line → Option Line
  | [] => none
  | c :: cs =>
      if c == '=' then
        let tok := (cs.dropWhile isPyWs).takeWhile isDigitDot
        if tok.isEmpty then searchEqNum cs else some tok
      else searchEqNum cs

/-- `re.search(r'([\d.-]+)', seg)`: the leftmost maximal `[\d.-]` run. -/
def searchRun (isTok : Char → Bool) : Line → Option Line
  | [] => none
  | c :: cs => if isTok c then some (c :: cs.takeWhile isTok) else searchRun isTok cs

/-- Python's `line.split(':')` (always returns at least one segment). -/
def splitColon : Line → List Line
  | [] => [[]]
  | c :: cs =>
      if c == ':' then [] :: splitColon cs
      else
        match splitColon cs with
        | s :: rest => (c :: s) :: rest
        | [] => [[c]]

/-- Numeric value of a digit string (Python `int` on a `[\d]+` match). -/
def digitsVal (ds : Line) : ℕ :=
  ds.foldl (fun n c => 10 * n + (c.toNat - 48)) 0

/-- Python `float()` on an unsigned token over `[\d.]` (and rejecting any
stray `-`): digits with at most one dot and at least one digit. -/
def pyFloatPos (cs : Line) : Option ℚ :=
  let ip := cs.takeWhile Char.isDigit
  match cs.drop ip.length with
  | [] => if ip.isEmpty then none else some ((digitsVal ip : ℚ))
  | '.' :: frac =>
      if frac.all Char.isDigit then
        if ip.isEmpty && frac.isEmpty then none
        else some ((digitsVal ip : ℚ) + (digitsVal frac : ℚ) / (10 : ℚ) ^ frac.length)
      else none
  | _ => none

/-- Python `float()` on a regex-matched token over `[\d.-]`: `none` models a
`ValueError` (e.g. on `"."`, `".."`, `"1.2.3"`, `"-"`, `"1-2"`). -/
def pyFloat : Line → Option ℚ
  | '-' :: rest => (pyFloatPos rest).map (fun q => -q)
  | cs => pyFloatPos cs

/-- The exceptions `analyze_gcode` can actually raise while scanning. -/
inductive PyErr where
  | valueError : PyErr
  | indexError : PyErr
deriving DecidableEq

/-- Scanning accumulator of `analyze_gcode`: the local `layer_count` and
`z_positions` plus the mutable fields of the `analysis` dict that the loop
can write. -/
structure GAcc where
  layer_count : ℕ
  z_positions : List ℚ
  bed_temp : Option ℚ
  hotend_temp : Option ℚ
  estimated_time : Option ℕ
  filament_length : Option ℚ
  minx : Option ℚ
deriving DecidableEq

/-- Adding an element to the model of the Python set `z_positions` (kept as
a duplicate-free list; only cardinality and membership matter). -/
def insertZ (q : ℚ) (zs : List ℚ) : List ℚ :=
  if q ∈ zs then zs else zs ++ [q]

def initAcc : GAcc :=
  { layer_count := 0, z_positions := [], bed_temp := none, hotend_temp := none
    estimated_time := none, filament_length := none, minx := none }

def mLAYER : Line := ";LAYER:".toList
def mLAYERCHANGE : Line := "LAYER_CHANGE".toList
def pG0 : Line := "G0".toList
def pG1 : Line := "G1".toList
def pM140 : Line := "M140".toList
def pM190 : Line := "M190".toList
def pM104 : Line := "M104".toList
def pM109 : Line := "M109".toList
def mTIME : Line := ";TIME:".toList
def mFILC : Line := ";Filament used:".toList
def mFILP : Line := "filament used [mm]".toList
def mMINX : Line := ";MINX:".toList
def mMINX2 : Line := "; min_x".toList

def hasLayerMarker (l : Line) : Bool := containsSub mLAYER l || containsSub mLAYERCHANGE l

def isMove (l : Line) : Bool := pG0.isPrefixOf l || pG1.isPrefixOf l

def isBedCmd (l : Line) : Bool := pM140.isPrefixOf l || pM190.isPrefixOf l

def isHotCmd (l : Line) : Bool := pM104.isPrefixOf l || pM109.isPrefixOf l

def minxGuard (l : Line) : Bool := containsSub mMINX l || containsSub mMINX2 (lowerLine l)

/-- Source lines 274-275: count layer markers. -/
def layerRule (acc : GAcc) (l : Line) : GAcc :=
  if hasLayerMarker l then { acc with layer_count := acc.layer_count + 1 } else acc

/-- Source lines 278-281: on a `G0`/`G1` line, a matched `Z` token is
converted with `float()` (which may raise) and added to the set. -/
def zRule (acc : GAcc) (l : Line) : Except PyErr GAcc :=
  if isMove l then
    match searchKeyTok 'Z' isDigitDot l with
    | some tok =>
        match pyFloat tok with
        | some q => .ok { acc with z_positions := insertZ q acc.z_positions }
        | none => .error .valueError
    | none => .ok acc
  else .ok acc

/-- Source lines 284-287: on a `M140`/`M190` line, a matched `S` token is
converted only when `bed_temp` is still unset. -/
def bedRule (acc : GAcc) (l : Line) : Except PyErr GAcc :=
  if isBedCmd l then
    match searchKeyTok 'S' isDigitDot l with
    | some tok =>
        if acc.bed_temp = none then
          match pyFloat tok with
          | some q => .ok { acc with bed_temp := some q }
          | none => .error .valueError
        else .ok acc
    | none => .ok acc
  else .ok acc

/-- Source lines 289-292: same for `M104`/`M109` and `hotend_temp`. -/
def hotendRule (acc : GAcc) (l : Line) : Except PyErr GAcc :=
  if isHotCmd l then
    match searchKeyTok 'S' isDigitDot l with
    | some tok =>
        if acc.hotend_temp = none then
          match pyFloat tok with
          | some q => .ok { acc with hotend_temp := some q }
          | none => .error .valueError
        else .ok acc
    | none => .ok acc
  else .ok acc

/-- Source lines 295-298: `;TIME:` assigns unconditionally (`int()` on a
digit run cannot fail). -/
def timeRule (acc : GAcc) (l : Line) : GAcc :=
  if containsSub mTIME l then
    match searchLitTok mTIME Char.isDigit l with
    | some ds => { acc with estimated_time := some (digitsVal ds) }
    | none => acc
  else acc

/-- Source lines 300-303: `;Filament used:` assigns unconditionally. -/
def curaFilRule (acc : GAcc) (l : Line) : Except PyErr GAcc :=
  if containsSub mFILC l then
    match searchTokM isDigitDot l with
    | some tok =>
        match pyFloat tok with
        | some q => .ok { acc with filament_length := some q }
        | none => .error .valueError
    | none => .ok acc
  else .ok acc

/-- Source lines 305-308: `filament used [mm]` (case-insensitive) assigns
`float(...) / 1000` unconditionally. -/
def prusaFilRule (acc : GAcc) (l : Line) : Except PyErr GAcc :=
  if containsSub mFILP (lowerLine l) then
    match searchEqNum l with
    | some tok =>
        match pyFloat tok with
        | some q => .ok { acc with filament_length := some (q / 1000) }
        | none => .error .valueError
    | none => .ok acc
  else .ok acc

/-- Source lines 310-313: on a `;MINX:` or `; min_x` line,
`line.split(':')[1]` raises `IndexError` when the line has no colon;
otherwise the first `[\d.-]` run of the second segment is converted and
assigned unconditionally. -/
def minxRule (acc : GAcc) (l : Line) : Except PyErr GAcc :=
  if minxGuard l then
    match splitColon l with
    | _ :: seg :: _ =>
        match searchRun isDigitDotDash seg with
        | some tok =>
            match pyFloat tok with
            | some q => .ok { acc with minx := some q }
            | none => .error .valueError
        | none => .ok acc
    | _ => .error .indexError
  else .ok acc

/-- One iteration of the scanning loop on an already-stripped line, rules in
source order. -/
def stepCore (acc : GAcc) (l : Line) : Except PyErr GAcc :=
  match zRule (layerRule acc l) l with
  | .error e => .error e
  | .ok a2 =>
    match bedRule a2 l with
    | .error e => .error e
    | .ok a3 =>
      match hotendRule a3 l with
      | .error e => .error e
      | .ok a4 =>
        match curaFilRule (timeRule a4 l) l with
        | .error e => .error e
        | .ok a6 =>
          match prusaFilRule a6 l with
          | .error e => .error e
          | .ok a7 => minxRule a7 l

/-- One iteration of the scanning loop: `line = line.strip()` then the rule
chain. -/
def stepLine (acc : GAcc) (raw : Line) : Except PyErr GAcc :=
  stepCore acc (pyStrip raw)

/-- The `for line in f:` loop. -/
def runLines (acc : GAcc) : List Line → Except PyErr GAcc
  | [] => .ok acc
  | raw :: rest =>
      match stepLine acc raw with
      | .error e => .error e
      | .ok a => runLines a rest

/-- The fields of the `analysis` dict that the scanning loop can produce
(`filename` and `size_bytes` are copied from the caller and omitted;
`filament_weight`, the layer heights, and all bounding-box slots other than
`min[0]` are never written and stay `none`). -/
structure GAnalysis where
  layers : ℕ
  estimated_time : Option ℕ
  filament_length : Option ℚ
  filament_weight : Option ℚ
  bed_temp : Option ℚ
  hotend_temp : Option ℚ
  first_layer_height : Option ℚ
  layer_height : Option ℚ
  bbox_min_x : Option ℚ
deriving DecidableEq

/-- Source lines 315-319: the layer-count tie-break, then the record. -/
def finalize (acc : GAcc) : GAnalysis :=
  { layers :=
      if acc.layer_count = 0 ∧ acc.z_positions ≠ [] then acc.z_positions.length
      else acc.layer_count
    estimated_time := acc.estimated_time
    filament_length := acc.filament_length
    filament_weight := none
    bed_temp := acc.bed_temp
    hotend_temp := acc.hotend_temp
    first_layer_height := none
    layer_height := none
    bbox_min_x := acc.minx }

/-- Shallow embedding of `analyze_gcode`'s scanning loop over the file's
lines. -/
def analyzeGcode (lines : List Line) : Except PyErr GAnalysis :=
  (runLines initAcc lines).map finalize

/-! ### Per-line characterization of the scanning rules -/

/-- The value the Z rule contributes on a stripped line, when it does not
raise: guard, search, then successful conversion. -/
def parseZ (l : Line) : Option ℚ :=
  if isMove l then (searchKeyTok 'Z' isDigitDot l).bind pyFloat else none

def parseBed (l : Line) : Option ℚ :=
  if isBedCmd l then (searchKeyTok 'S' isDigitDot l).bind pyFloat else none

def parseHot (l : Line) : Option ℚ :=
  if isHotCmd l then (searchKeyTok 'S' isDigitDot l).bind pyFloat else none

def parseTime (l : Line) : Option ℕ :=
  if containsSub mTIME l then (searchLitTok mTIME Char.isDigit l).map digitsVal else none

def parseCura (l : Line) : Option ℚ :=
  if containsSub mFILC l then (searchTokM isDigitDot l).bind pyFloat else none

def parsePrusa (l : Line) : Option ℚ :=
  if containsSub mFILP (lowerLine l) then
    (searchEqNum l).bind (fun tok => (pyFloat tok).map (fun q => q / 1000))
  else none

/-- Both filament annotations write the same field; the second (PrusaSlicer)
rule runs after the first, so its value wins on a line matching both. -/
def parseFil (l : Line) : Option ℚ := pyor (parsePrusa l) (parseCura l)

def parseMinx (l : Line) : Option ℚ :=
  if minxGuard l then
    match splitColon l with
    | _ :: seg :: _ => (searchRun isDigitDotDash seg).bind pyFloat
    | _ => none
  else none

/-- The effect of one loop iteration on the accumulator, when no exception
is raised: the layer counter increments on marker lines, the Z set absorbs a
parsed height, the two temperatures are first-write-wins, and duration,
filament length, and the bounding-box minimum are overwritten by any new
parsed value. -/
def lineModelCore (acc : GAcc) (l : Line) : GAcc :=
  { layer_count := acc.layer_count + (if hasLayerMarker l then 1 else 0)
    z_positions :=
      match parseZ l with
      | some q => insertZ q acc.z_positions
      | none => acc.z_positions
    bed_temp := pyor acc.bed_temp (parseBed l)
    hotend_temp := pyor acc.hotend_temp (parseHot l)
    estimated_time := pyor (parseTime l) acc.estimated_time
    filament_length := pyor (parseFil l) acc.filament_length
    minx := pyor (parseMinx l) acc.minx }

def lineModel (acc : GAcc) (raw : Line) : GAcc := lineModelCore acc (pyStrip raw)

theorem layerRule_eq (acc : GAcc) (l : Line) :
    layerRule acc l
      = { acc with layer_count := acc.layer_count + (if hasLayerMarker l then 1 else 0) } := by
  unfold layerRule
  by_cases h : hasLayerMarker l <;> simp [h]

theorem zRule_ok {acc acc' : GAcc} {l : Line} (h : zRule acc l = .ok acc') :
    acc' = { acc with
      z_positions :=
        match parseZ l with
        | some q => insertZ q acc.z_positions
        | none => acc.z_positions } := by
  obtain ⟨lc, zs, bt, ht, et, fl, mx⟩ := acc
  unfold zRule at h
  by_cases hm : isMove l
  · simp only [hm, if_true] at h
    cases hs : searchKeyTok 'Z' isDigitDot l with
    | none =>
        simp [hs] at h
        subst h
        simp [parseZ, hm, hs]
    | some tok =>
        cases hf : pyFloat tok with
        | none => simp [hs, hf] at h
        | some q =>
            simp [hs, hf] at h
            subst h
            simp [parseZ, hm, hs, hf]
  · simp only [hm, Bool.false_eq_true, if_false] at h
    simp at h
    subst h
    simp [parseZ, hm]

theorem bedRule_ok {acc acc' : GAcc} {l : Line} (h : bedRule acc l = .ok acc') :
    acc' = { acc with bed_temp := pyor acc.bed_temp (parseBed l) } := by
  obtain ⟨lc, zs, bt, ht, et, fl, mx⟩ := acc
  unfold bedRule at h
  by_cases hm : isBedCmd l
  · simp only [hm, if_true] at h
    cases hs : searchKeyTok 'S' isDigitDot l with
    | none =>
        simp [hs] at h
        subst h
        simp [parseBed, hm, hs]
    | some tok =>
        cases hbt : bt with
        | none =>
            cases hf : pyFloat tok with
            | none => simp [hs, hbt, hf] at h
            | some q =>
                simp [hs, hbt, hf] at h
                subst h
                simp [parseBed, hm, hs, hf]
        | some v =>
            simp [hs, hbt] at h
            subst h
            simp [parseBed, hm, hs]
  · simp only [hm, Bool.false_eq_true, if_false] at h
    simp at h
    subst h
    simp [parseBed, hm]

theorem hotendRule_ok {acc acc' : GAcc} {l : Line} (h : hotendRule acc l = .ok acc') :
    acc' = { acc with hotend_temp := pyor acc.hotend_temp (parseHot l) } := by
  obtain ⟨lc, zs, bt, ht, et, fl, mx⟩ := acc
  unfold hotendRule at h
  by_cases hm : isHotCmd l
  · simp only [hm, if_true] at h
    cases hs : searchKeyTok 'S' isDigitDot l with
    | none =>
        simp [hs] at h
        subst h
        simp [parseHot, hm, hs]
    | some tok =>
        cases hht : ht with
        | none =>
            cases hf : pyFloat tok with
            | none => simp [hs, hht, hf] at h
            | some q =>
                simp [hs, hht, hf] at h
                subst h
                simp [parseHot, hm, hs, hf]
        | some v =>
            simp [hs, hht] at h
            subst h
            simp [parseHot, hm, hs]
  · simp only [hm, Bool.false_eq_true, if_false] at h
    simp at h
    subst h
    simp [parseHot, hm]

theorem timeRule_eq (acc : GAcc) (l : Line) :
    timeRule acc l = { acc with estimated_time := pyor (parseTime l) acc.estimated_time } := by
  obtain ⟨lc, zs, bt, ht, et, fl, mx⟩ := acc
  unfold timeRule
  by_cases hm : containsSub mTIME l
  · simp only [hm, if_true]
    cases hs : searchLitTok mTIME Char.isDigit l with
    | none => simp [parseTime, hm, hs]
    | some ds => simp [parseTime, hm, hs]
  · simp only [hm, Bool.false_eq_true, if_false]
    simp [parseTime, hm]

theorem curaFilRule_ok {acc acc' : GAcc} {l : Line} (h : curaFilRule acc l = .ok acc') :
    acc' = { acc with filament_length := pyor (parseCura l) acc.filament_length } := by
  obtain ⟨lc, zs, bt, ht, et, fl, mx⟩ := acc
  unfold curaFilRule at h
  by_cases hm : containsSub mFILC l
  · simp only [hm, if_true] at h
    cases hs : searchTokM isDigitDot l with
    | none =>
        simp [hs] at h
        subst h
        simp [parseCura, hm, hs]
    | some tok =>
        cases hf : pyFloat tok with
        | none => simp [hs, hf] at h
        | some q =>
            simp [hs, hf] at h
            subst h
            simp [parseCura, hm, hs, hf]
  · simp only [hm, Bool.false_eq_true, if_false] at h
    simp at h
    subst h
    simp [parseCura, hm]

theorem prusaFilRule_ok {acc acc' : GAcc} {l : Line} (h : prusaFilRule acc l = .ok acc') :
    acc' = { acc with filament_length := pyor (parsePrusa l) acc.filament_length } := by
  obtain ⟨lc, zs, bt, ht, et, fl, mx⟩ := acc
  unfold prusaFilRule at h
  by_cases hm : containsSub mFILP (lowerLine l)
  · simp only [hm, if_true] at h
    cases hs : searchEqNum l with
    | none =>
        simp [hs] at h
        subst h
        simp [parsePrusa, hm, hs]
    | some tok =>
        cases hf : pyFloat tok with
        | none => simp [hs, hf] at h
        | some q =>
            simp [hs, hf] at h
            subst h
            simp [parsePrusa, hm, hs, hf]
  · simp only [hm, Bool.false_eq_true, if_false] at h
    simp at h
    subst h
    simp [parsePrusa, hm]

theorem minxRule_ok {acc acc' : GAcc} {l : Line} (h : minxRule acc l = .ok acc') :
    acc' = { acc with minx := pyor (parseMinx l) acc.minx } := by
  obtain ⟨lc, zs, bt, ht, et, fl, mx⟩ := acc
  unfold minxRule at h
  by_cases hm : minxGuard l
  · simp only [hm, if_true] at h
    cases hc : splitColon l with
    | nil => simp [hc] at h
    | cons s1 rest =>
        cases rest with
        | nil => simp [hc] at h
        | cons seg rest2 =>
            cases hs : searchRun isDigitDotDash seg with
            | none =>
                simp [hc, hs] at h
                subst h
                simp [parseMinx, hm, hc, hs]
            | some tok =>
                cases hf : pyFloat tok with
                | none => simp [hc, hs, hf] at h
                | some q =>
                    simp [hc, hs, hf] at h
                    subst h
                    simp [parseMinx, hm, hc, hs, hf]
  · simp only [hm, Bool.false_eq_true, if_false] at h
    simp at h
    subst h
    simp [parseMinx, hm]

theorem stepCore_ok {acc acc' : GAcc} {l : Line} (h : stepCore acc l = .ok acc') :
    acc' = lineModelCore acc l := by
  unfold stepCore at h
  cases h2 : zRule (layerRule acc l) l with
  | error e => simp [h2] at h
  | ok a2 =>
    simp only [h2] at h
    cases h3 : bedRule a2 l with
    | error e => simp [h3] at h
    | ok a3 =>
      simp only [h3] at h
      cases h4 : hotendRule a3 l with
      | error e => simp [h4] at h
      | ok a4 =>
        simp only [h4] at h
        cases h6 : curaFilRule (timeRule a4 l) l with
        | error e => simp [h6] at h
        | ok a6 =>
          simp only [h6] at h
          cases h7 : prusaFilRule a6 l with
          | error e => simp [h7] at h
          | ok a7 =>
            simp only [h7] at h
            have e2 := zRule_ok h2
            have e3 := bedRule_ok h3
            have e4 := hotendRule_ok h4
            have e6 := curaFilRule_ok h6
            have e7 := prusaFilRule_ok h7
            have e8 := minxRule_ok h
            subst e2 e3 e4 e6 e7 e8
            obtain ⟨lc, zs, bt, ht, et, fl, mx⟩ := acc
            simp [layerRule_eq, timeRule_eq, lineModelCore, parseFil, pyor_assoc]

theorem runLines_ok : ∀ (lines : List Line) (acc a : GAcc),
    runLines acc lines = .ok a → a = lines.foldl lineModel acc := by
  intro lines
  induction lines with
  | nil =>
      intro acc a h
      simp [runLines] at h
      simp [h]
  | cons raw rest ih =>
      intro acc a h
      unfold runLines at h
      cases hstep : stepLine acc raw with
      | error e => simp [hstep] at h
      | ok a1 =>
          simp only [hstep] at h
          have e1 : a1 = lineModel acc raw := stepCore_ok hstep
          subst e1
          simpa using ih _ _ h

/-- The first validly-parsed value over the lines, in line order. -/
def firstSome {α : Type} (g : Line → Option α) : List Line → Option α
  | [] => none
  | raw :: rest =>
      match g (pyStrip raw) with
      | some v => some v
      | none => firstSome g rest

/-- The last validly-parsed value over the lines. -/
def lastSome {α : Type} (g : Line → Option α) (lines : List Line) : Option α :=
  firstSome g lines.reverse

theorem firstSome_cons {α : Type} (g : Line → Option α) (raw : Line) (rest : List Line) :
    firstSome g (raw :: rest) = pyor (g (pyStrip raw)) (firstSome g rest) := by
  cases h : g (pyStrip raw) <;> simp [firstSome, h, pyor]

theorem firstSome_append {α : Type} (g : Line → Option α) (xs ys : List Line) :
    firstSome g (xs ++ ys) = pyor (firstSome g xs) (firstSome g ys) := by
  induction xs with
  | nil => simp [firstSome]
  | cons raw rest ih => simp [firstSome_cons, ih, pyor_assoc]

theorem lastSome_cons {α : Type} (g : Line → Option α) (raw : Line) (rest : List Line) :
    lastSome g (raw :: rest) = pyor (lastSome g rest) (g (pyStrip raw)) := by
  cases h : g (pyStrip raw) <;>
    simp [lastSome, firstSome_append, firstSome_cons, firstSome, h]

theorem foldl_lineModel_bed : ∀ (lines : List Line) (acc : GAcc),
    (lines.foldl lineModel acc).bed_temp
      = pyor acc.bed_temp (firstSome parseBed lines) := by
  intro lines
  induction lines with
  | nil => intro acc; simp [firstSome]
  | cons raw rest ih =>
      intro acc
      rw [List.foldl_cons, ih, firstSome_cons]
      show pyor (pyor acc.bed_temp (parseBed (pyStrip raw))) (firstSome parseBed rest) = _
      rw [pyor_assoc]

theorem foldl_lineModel_hot : ∀ (lines : List Line) (acc : GAcc),
    (lines.foldl lineModel acc).hotend_temp
      = pyor acc.hotend_temp (firstSome parseHot lines) := by
  intro lines
  induction lines with
  | nil => intro acc; simp [firstSome]
  | cons raw rest ih =>
      intro acc
      rw [List.foldl_cons, ih, firstSome_cons]
      show pyor (pyor acc.hotend_temp (parseHot (pyStrip raw))) (firstSome parseHot rest) = _
      rw [pyor_assoc]

theorem foldl_lineModel_time : ∀ (lines : List Line) (acc : GAcc),
    (lines.foldl lineModel acc).estimated_time
      = pyor (lastSome parseTime lines) acc.estimated_time := by
  intro lines
  induction lines with
  | nil => intro acc; simp [lastSome, firstSome]
  | cons raw rest ih =>
      intro acc
      rw [List.foldl_cons, ih, lastSome_cons]
      show pyor (lastSome parseTime rest) (pyor (parseTime (pyStrip raw)) acc.estimated_time) = _
      rw [pyor_assoc]

theorem foldl_lineModel_fil : ∀ (lines : List Line) (acc : GAcc),
    (lines.foldl lineModel acc).filament_length
      = pyor (lastSome parseFil lines) acc.filament_length := by
  intro lines
  induction lines with
  | nil => intro acc; simp [lastSome, firstSome]
  | cons raw rest ih =>
      intro acc
      rw [List.foldl_cons, ih, lastSome_cons]
      show pyor (lastSome parseFil rest) (pyor (parseFil (pyStrip raw)) acc.filament_length) = _
      rw [pyor_assoc]

theorem foldl_lineModel_minx : ∀ (lines : List Line) (acc : GAcc),
    (lines.foldl lineModel acc).minx
      = pyor (lastSome parseMinx lines) acc.minx := by
  intro lines
  induction lines with
  | nil => intro acc; simp [lastSome, firstSome]
  | cons raw rest ih =>
      intro acc
      rw [List.foldl_cons, ih, lastSome_cons]
      show pyor (lastSome parseMinx rest) (pyor (parseMinx (pyStrip raw)) acc.minx) = _
      rw [pyor_assoc]

/-- Number of explicit layer-marker lines (counted on stripped lines, as the
source does). -/
def explicitLayerCount (lines : List Line) : ℕ :=
  lines.countP (fun raw => hasLayerMarker (pyStrip raw))

theorem foldl_lineModel_layer : ∀ (lines : List Line) (acc : GAcc),
    (lines.foldl lineModel acc).layer_count
      = acc.layer_count + explicitLayerCount lines := by
  intro lines
  induction lines with
  | nil => intro acc; simp [explicitLayerCount]
  | cons raw rest ih =>
      intro acc
      rw [List.foldl_cons, ih]
      show acc.layer_count + (if hasLayerMarker (pyStrip raw) then 1 else 0)
            + explicitLayerCount rest = _
      unfold explicitLayerCount
      rw [List.countP_cons]
      by_cases h : hasLayerMarker (pyStrip raw) <;> simp [h] <;> try omega

/-- One step of the Python set accumulation for Z heights. -/
def zStep (zs : List ℚ) (raw : Line) : List ℚ :=
  match parseZ (pyStrip raw) with
  | some q => insertZ q zs
  | none => zs

/-- The set of distinct Z heights seen on linear-move lines, as accumulated
by the loop. -/
def zHeights (lines : List Line) : List ℚ := lines.foldl zStep []

theorem foldl_lineModel_z : ∀ (lines : List Line) (acc : GAcc),
    (lines.foldl lineModel acc).z_positions = lines.foldl zStep acc.z_positions := by
  intro lines
  induction lines with
  | nil => intro acc; rfl
  | cons raw rest ih =>
      intro acc
      rw [List.foldl_cons, ih, List.foldl_cons]
      rfl

theorem insertZ_mem_iff (q' q : ℚ) (zs : List ℚ) :
    q' ∈ insertZ q zs ↔ q' ∈ zs ∨ q' = q := by
  unfold insertZ
  by_cases h : q ∈ zs
  · simp only [h, if_true]
    constructor
    · exact Or.inl
    · rintro (hh | hh)
      · exact hh
      · rw [hh]; exact h
  · simp [h]

theorem insertZ_nodup (q : ℚ) (zs : List ℚ) (h : zs.Nodup) : (insertZ q zs).Nodup := by
  unfold insertZ
  by_cases hm : q ∈ zs
  · simp [hm, h]
  · rw [if_neg hm, List.nodup_append]
    refine ⟨h, List.nodup_singleton q, ?_⟩
    intro a ha hb
    rw [List.mem_singleton] at hb
    rw [hb] at ha
    exact hm ha

theorem zfold_nodup : ∀ (lines : List Line) (zs : List ℚ),
    zs.Nodup → (lines.foldl zStep zs).Nodup := by
  intro lines
  induction lines with
  | nil => intro zs h; exact h
  | cons raw rest ih =>
      intro zs h
      rw [List.foldl_cons]
      apply ih
      unfold zStep
      cases hp : parseZ (pyStrip raw) with
      | none => exact h
      | some q => exact insertZ_nodup q zs h

theorem zfold_mem : ∀ (lines : List Line) (zs : List ℚ) (q : ℚ),
    q ∈ lines.foldl zStep zs
      ↔ q ∈ zs ∨ ∃ raw ∈ lines, parseZ (pyStrip raw) = some q := by
  intro lines
  induction lines with
  | nil => intro zs q; simp
  | cons raw rest ih =>
      intro zs q
      rw [List.foldl_cons, ih]
      unfold zStep
      cases hp : parseZ (pyStrip raw) with
      | none =>
          simp only [List.mem_cons]
          constructor
          · rintro (hh | hh)
            · exact Or.inl hh
            · exact Or.inr (by obtain ⟨r, hr, hpr⟩ := hh; exact ⟨r, Or.inr hr, hpr⟩)
          · rintro (hh | ⟨r, hr | hr, hpr⟩)
            · exact Or.inl hh
            · rw [hr] at hpr; rw [hpr] at hp; cases hp
            · exact Or.inr ⟨r, hr, hpr⟩
      | some q0 =>
          rw [insertZ_mem_iff]
          simp only [List.mem_cons]
          constructor
          · rintro ((hh | hh) | hh)
            · exact Or.inl hh
            · exact Or.inr ⟨raw, Or.inl rfl, by rw [hp, hh]⟩
            · exact Or.inr (by obtain ⟨r, hr, hpr⟩ := hh; exact ⟨r, Or.inr hr, hpr⟩)
          · rintro (hh | ⟨r, hr | hr, hpr⟩)
            · exact Or.inl (Or.inl hh)
            · rw [hr] at hpr; rw [hpr] at hp; cases hp; exact Or.inl (Or.inr rfl)
            · exact Or.inr ⟨r, hr, hpr⟩

theorem zHeights_nodup (lines : List Line) : (zHeights lines).Nodup :=
  zfold_nodup lines [] List.nodup_nil

theorem zHeights_mem (lines : List Line) (q : ℚ) :
    q ∈ zHeights lines ↔ ∃ raw ∈ lines, parseZ (pyStrip raw) = some q := by
  unfold zHeights
  rw [zfold_mem]
  simp

theorem analyzeGcode_ok {lines : List Line} {a : GAnalysis}
    (h : analyzeGcode lines = .ok a) :
    a = finalize (lines.foldl lineModel initAcc) := by
  unfold analyzeGcode at h
  cases hr : runLines initAcc lines with
  | error e => simp [hr, Except.map] at h
  | ok acc =>
      simp [hr, Except.map] at h
      subst h
      rw [runLines_ok lines initAcc acc hr]

theorem analyzeGcode_fields {lines : List Line} {a : GAnalysis}
    (h : analyzeGcode lines = .ok a) :
    a.bed_temp = firstSome parseBed lines
  ∧ a.hotend_temp = firstSome parseHot lines
  ∧ a.estimated_time = lastSome parseTime lines
  ∧ a.filament_length = lastSome parseFil lines
  ∧ a.bbox_min_x = lastSome parseMinx lines
  ∧ a.layers =
      (if explicitLayerCount lines = 0 ∧ zHeights lines ≠ [] then (zHeights lines).length
       else explicitLayerCount lines) := by
  rw [analyzeGcode_ok h]
  refine ⟨?_, ?_, ?_, ?_, ?_, ?_⟩
  · show (lines.foldl lineModel initAcc).bed_temp = _
    rw [foldl_lineModel_bed]
    rfl
  · show (lines.foldl lineModel initAcc).hotend_temp = _
    rw [foldl_lineModel_hot]
    rfl
  · show (lines.foldl lineModel initAcc).estimated_time = _
    rw [foldl_lineModel_time]
    simp [initAcc]
  · show (lines.foldl lineModel initAcc).filament_length = _
    rw [foldl_lineModel_fil]
    simp [initAcc]
  · show (lines.foldl lineModel initAcc).minx = _
    rw [foldl_lineModel_minx]
    simp [initAcc]
  · show (if (lines.foldl lineModel initAcc).layer_count = 0
            ∧ (lines.foldl lineModel initAcc).z_positions ≠ [] then
          (lines.foldl lineModel initAcc).z_positions.length
        else (lines.foldl lineModel initAcc).layer_count) = _
    rw [foldl_lineModel_layer, foldl_lineModel_z]
    show (if 0 + explicitLayerCount lines = 0 ∧ zHeights lines ≠ [] then (zHeights lines).length
          else 0 + explicitLayerCount lines) = _
    rw [Nat.zero_add]

/-- C1 counterexample: on the two lines `;TIME:100`, `;TIME:200`, the first
validly-parsed duration is `100`, but the extractor returns `200` — the
estimated-duration field is overwritten by the later match, so it does not
hold the first validly-parsed value. -/
theorem analyze_first_write_counterexample :
    (analyzeGcode [";TIME:100".toList, ";TIME:200".toList]).map (fun a => a.estimated_time)
        = .ok (some 200)
  ∧ firstSome parseTime [";TIME:100".toList, ";TIME:200".toList] = some 100
  ∧ some (200 : ℕ) ≠ some 100 :=
  ⟨by decide, by decide, by decide⟩

/-- C1 (amended): when extraction succeeds, the bed and hotend temperature
fields hold the FIRST validly-parsed value in line order (first-write-wins),
while the estimated duration, filament length, and bounding-box minimum hold
the LAST validly-parsed value (later valid matches overwrite earlier ones). -/
theorem analyze_field_write_policy (lines : List Line) (a : GAnalysis)
    (h : analyzeGcode lines = .ok a) :
    a.bed_temp = firstSome parseBed lines
  ∧ a.hotend_temp = firstSome parseHot lines
  ∧ a.estimated_time = lastSome parseTime lines
  ∧ a.filament_length = lastSome parseFil lines
  ∧ a.bbox_min_x = lastSome parseMinx lines :=
  ⟨(analyzeGcode_fields h).1, (analyzeGcode_fields h).2.1, (analyzeGcode_fields h).2.2.1,
   (analyzeGcode_fields h).2.2.2.1, (analyzeGcode_fields h).2.2.2.2.1⟩

def linesMixed : List Line :=
  [";TIME:100".toList, ";TIME:200".toList, "M140 S60".toList, "M140 S70".toList,
   ";Filament used: 3.5m".toList, "; filament used [mm] = 2500".toList,
   ";MINX: 1.5".toList, ";MINX: 2.5".toList]

def resMixed : GAnalysis :=
  { layers := 0, estimated_time := some 200, filament_length := some (5 / 2)
    filament_weight := none, bed_temp := some 60, hotend_temp := none
    first_layer_height := none, layer_height := none, bbox_min_x := some (5 / 2) }

theorem analyze_field_write_policy_witness :
    resMixed.bed_temp = firstSome parseBed linesMixed
  ∧ resMixed.hotend_temp = firstSome parseHot linesMixed
  ∧ resMixed.estimated_time = lastSome parseTime linesMixed
  ∧ resMixed.filament_length = lastSome parseFil linesMixed
  ∧ resMixed.bbox_min_x = lastSome parseMinx linesMixed :=
  analyze_field_write_policy linesMixed resMixed (by decide)

/-- C2: the source's own failure modes on malformed lines.  The line
`; min_x 1` matches the `; min_x` marker but has no colon, so
`line.split(':')[1]` raises `IndexError`; the line `G1 Z.` matches
`Z([\d.]+)` with token `"."`, which `float()` rejects with `ValueError`.
Both contradict the claim that the extractor never fails on malformed line
content. -/
theorem analyze_malformed_crash :
    analyzeGcode ["; min_x 1".toList] = .error .indexError
  ∧ analyzeGcode ["G1 Z.".toList] = .error .valueError :=
  ⟨by decide, by decide⟩

/-- C4: layer-count tie-break.  When extraction succeeds: a positive number
of explicit layer markers wins regardless of the Z-height set; otherwise the
layer count is the number of distinct Z heights parsed from `G0`/`G1` lines;
with neither, it is `0`.  `zHeights` is duplicate-free and contains exactly
the validly-parsed Z values. -/
theorem layer_count_tiebreak (lines : List Line) (a : GAnalysis)
    (h : analyzeGcode lines = .ok a) :
    (explicitLayerCount lines ≠ 0 → a.layers = explicitLayerCount lines)
  ∧ (explicitLayerCount lines = 0 → a.layers = (zHeights lines).length)
  ∧ (explicitLayerCount lines = 0 → zHeights lines = [] → a.layers = 0)
  ∧ (zHeights lines).Nodup
  ∧ (∀ q : ℚ, q ∈ zHeights lines ↔ ∃ raw ∈ lines, parseZ (pyStrip raw) = some q) := by
  have hl := (analyzeGcode_fields h).2.2.2.2.2
  refine ⟨?_, ?_, ?_, zHeights_nodup lines, zHeights_mem lines⟩
  · intro hne
    rw [hl, if_neg]
    rintro ⟨h0, _⟩
    exact hne h0
  · intro h0
    rw [hl]
    by_cases hz : zHeights lines = []
    · rw [if_neg, h0, hz]
      rfl
      rintro ⟨_, hcon⟩
      exact hcon hz
    · rw [if_pos ⟨h0, hz⟩]
  · intro h0 hz
    rw [hl, if_neg, h0]
    rintro ⟨_, hcon⟩
    exact hcon hz

def linesLayers : List Line :=
  ["G1 Z0.2".toList, ";LAYER:0".toList, ";LAYER:1".toList, "G1 Z0.4".toList]

def resLayers : GAnalysis :=
  { layers := 2, estimated_time := none, filament_length := none, filament_weight := none
    bed_temp := none, hotend_temp := none, first_layer_height := none, layer_height := none
    bbox_min_x := none }

theorem layer_count_tiebreak_witness :
    resLayers.layers = explicitLayerCount linesLayers :=
  (layer_count_tiebreak linesLayers resLayers (by decide)).1 (by decide)

/-- C8: first-write-wins for the two temperature fields, tracked
independently: when extraction succeeds, each holds the first validly-parsed
`S` value among its own command lines, so of two lines matching the same
temperature rule with different values, the earlier line's value is the one
retained. -/
theorem temp_first_write_wins (lines : List Line) (a : GAnalysis)
    (h : analyzeGcode lines = .ok a) :
    a.bed_temp = firstSome parseBed lines ∧ a.hotend_temp = firstSome parseHot lines :=
  ⟨(analyzeGcode_fields h).1, (analyzeGcode_fields h).2.1⟩

def linesTemps : List Line :=
  ["M140 S60".toList, "M140 S70".toList, "M104 S200".toList, "M104 S210".toList]

def resTemps : GAnalysis :=
  { layers := 0, estimated_time := none, filament_length := none, filament_weight := none
    bed_temp := some 60, hotend_temp := some 200, first_layer_height := none
    layer_height := none, bbox_min_x := none }

theorem temp_first_write_wins_witness :
    resTemps.bed_temp = firstSome parseBed linesTemps
  ∧ resTemps.hotend_temp = firstSome parseHot linesTemps :=
  temp_first_write_wins linesTemps resTemps (by decide)

end RatEval
